import Mathlib

/-!
Verification of the PC-sampling NVMe fuzzer (`PC_Sampling/pc_sampling_fuzzer_v4.5.py`).

The Python source is embedded shallowly:

* Python `set`s become duplicate-free insertion lists (`insertNew`);
* Python `dict`s become association lists with update-in-place semantics
  (`setA`, `lookupD`, `removeA`);
* machine integers are `Nat` (PCs and CDWs are unsigned 32-bit reads) with
  explicit `% 2^32` where Python masks with `0xFFFFFFFF`;
* fallible operations return `Option`.

Each definition mirrors one Python function and is named after it
(leading underscores dropped where Lean's lexer requires).
-/

namespace PCFuzz

/-- An execution edge `(prev_pc, cur_pc)`: an ordered pair of sampled PCs. -/
abbrev Edge := Nat × Nat

section AssocHelpers

variable {K V : Type} [DecidableEq K]

/-- Python `dict.get(k, d)`: first value bound to `k`, else default `d`. -/
def lookupD (m : List (K × V)) (k : K) (d : V) : V :=
  match m with
  | [] => d
  | (k', v) :: rest => if k' = k then v else lookupD rest k d

/-- Python `dict.get(k)` as an `Option`. -/
def lookupA (m : List (K × V)) (k : K) : Option V :=
  match m with
  | [] => none
  | (k', v) :: rest => if k' = k then some v else lookupA rest k

/-- Python `d[k] = v`: replace the binding of `k` if present, else append. -/
def setA (m : List (K × V)) (k : K) (v : V) : List (K × V) :=
  match m with
  | [] => [(k, v)]
  | (k', v') :: rest => if k' = k then (k', v) :: rest else (k', v') :: setA rest k v

/-- Python `d.pop(k, None)`: drop every binding of `k`. -/
def removeA (m : List (K × V)) (k : K) : List (K × V) :=
  match m with
  | [] => []
  | (k', v') :: rest => if k' = k then removeA rest k else (k', v') :: removeA rest k

/-- Python `set.add`: append `a` unless already present. -/
def insertNew {α : Type} [DecidableEq α] (s : List α) (a : α) : List α :=
  if a ∈ s then s else s ++ [a]

end AssocHelpers

/-- `_count_to_bucket` (source lines 359-370): AFL++-style log bucketing of a
cumulative hit count onto `{0,1,2,4,8,16,32,64,128}`. -/
def count_to_bucket (count : Nat) : Nat :=
  if count = 0 then 0
  else if count = 1 then 1
  else if count = 2 then 2
  else if count = 3 then 4
  else if count ≤ 7 then 8
  else if count ≤ 15 then 16
  else if count ≤ 31 then 32
  else if count ≤ 127 then 64
  else 128

/-- The global coverage state owned by `JLinkPCSampler`:
confirmed edges, the pending confirmation pool, cumulative hit counts,
current buckets, and the PC-level coverage set. -/
structure Store where
  globalEdges : List Edge
  globalEdgePending : List (Edge × Nat)
  globalEdgeCounts : List (Edge × Nat)
  globalEdgeBuckets : List (Edge × Nat)
  globalCoverage : List Nat
  deriving DecidableEq, Repr

/-- The empty coverage store (state of a freshly constructed sampler). -/
def Store.empty : Store :=
  { globalEdges := [], globalEdgePending := [], globalEdgeCounts := [],
    globalEdgeBuckets := [], globalCoverage := [] }

/-- Result of one `evaluate_coverage` call: the updated store together with the
local counters `new_confirmed` and `bucket_changes`. -/
structure EvalResult where
  store : Store
  newConfirmed : Nat
  bucketChanges : Nat
  deriving DecidableEq, Repr

/-- `is_interesting` as returned by `evaluate_coverage`:
at least one promotion or at least one bucket change. -/
def EvalResult.isInteresting (r : EvalResult) : Bool :=
  decide (0 < r.newConfirmed) || decide (0 < r.bucketChanges)

/-- The score returned by `evaluate_coverage`: `new_confirmed + bucket_changes`. -/
def EvalResult.score (r : EvalResult) : Nat :=
  r.newConfirmed + r.bucketChanges

/-- Confirmation step of `evaluate_coverage` for one edge of `current_edges`:
already-confirmed edges are skipped; otherwise the pending count is bumped and
the edge is promoted once it reaches `confirm_threshold`. -/
def evalEdgeStep (confirmThreshold : Nat) (acc : Store × Nat) (edge : Edge) :
    Store × Nat :=
  let (st, newConfirmed) := acc
  if edge ∈ st.globalEdges then
    (st, newConfirmed)
  else
    let cnt := lookupD st.globalEdgePending edge 0 + 1
    if confirmThreshold ≤ cnt then
      ({ st with globalEdges := insertNew st.globalEdges edge,
                 globalEdgePending := removeA st.globalEdgePending edge },
       newConfirmed + 1)
    else
      ({ st with globalEdgePending := setA st.globalEdgePending edge cnt },
       newConfirmed)

/-- Hit-count step of `evaluate_coverage` for one entry of `current_edge_counts`:
the cumulative count is always accumulated; a bucket change is recorded (and
counted when the edge already had hits) only for confirmed edges. -/
def evalCountStep (acc : Store × Nat) (entry : Edge × Nat) : Store × Nat :=
  let (st, bucketChanges) := acc
  let (edge, count) := entry
  let oldTotal := lookupD st.globalEdgeCounts edge 0
  let newTotal := oldTotal + count
  let st := { st with globalEdgeCounts := setA st.globalEdgeCounts edge newTotal }
  if edge ∈ st.globalEdges then
    let oldBucket := lookupD st.globalEdgeBuckets edge 0
    let newBucket := count_to_bucket newTotal
    if newBucket ≠ oldBucket then
      ({ st with globalEdgeBuckets := setA st.globalEdgeBuckets edge newBucket },
       if 0 < oldTotal then bucketChanges + 1 else bucketChanges)
    else
      (st, bucketChanges)
  else
    (st, bucketChanges)

/-- `JLinkPCSampler.evaluate_coverage` (source lines 658-715): merge the
per-run trace into PC coverage, run edge confirmation over `current_edges`,
then accumulate hit counts and detect bucket changes over
`current_edge_counts`. -/
def evaluate_coverage (confirmThreshold : Nat) (store : Store)
    (currentEdges : List Edge) (currentEdgeCounts : List (Edge × Nat))
    (currentTrace : List Nat) : EvalResult :=
  let st0 := { store with
    globalCoverage := currentTrace.foldl insertNew store.globalCoverage }
  let p1 := currentEdges.foldl (evalEdgeStep confirmThreshold) (st0, 0)
  let p2 := currentEdgeCounts.foldl evalCountStep (p1.1, 0)
  { store := p2.1, newConfirmed := p1.2, bucketChanges := p2.2 }

/-! ### The sampling worker (`JLinkPCSampler._sampling_worker`, lines 545-645)

One `_read_pc` outcome per loop iteration is modelled as an `Option Nat`
(`none` = probe fault, swallowed by `_read_pc`).  The externally set
`stop_event` is modelled by the end of the outcome list.  The worker reads a
snapshot of `global_edges` for its saturation judgment and never mutates it. -/

/-- Sampler configuration fields used by the worker. -/
structure SamplerConfig where
  addrRangeStart : Option Nat
  addrRangeEnd : Option Nat
  maxSamplesPerRun : Nat
  saturationLimit : Nat
  globalSaturationLimit : Nat
  deriving DecidableEq, Repr

/-- `JLinkPCSampler._in_range` (lines 539-543): inside the configured firmware
window; an unset bound makes every PC in-range. -/
def in_range (cfg : SamplerConfig) (pc : Nat) : Bool :=
  match cfg.addrRangeStart, cfg.addrRangeEnd with
  | some lo, some hi => decide (lo ≤ pc) && decide (pc ≤ hi)
  | _, _ => true

/-- The `prev_pc` sentinel `0xFFFFFFFF` (line 572). -/
def SENTINEL : Nat := 0xFFFFFFFF

/-- The early-stop reasons recorded in `_stopped_reason`. -/
inductive StopReason where
  | globalSaturated
  | idleSaturated
  | maxSamples
  | stopEvent
  deriving DecidableEq, Repr

/-- `_INTERVAL_CHECKPOINTS` (line 377). -/
def INTERVAL_CHECKPOINTS : List Nat := [10, 25, 50, 100, 200, 500]

/-- The worker's per-run state (the fields reset at the top of
`_sampling_worker` plus the loop locals). -/
structure WorkerState where
  currentEdges : List Edge
  currentEdgeCounts : List (Edge × Nat)
  currentTrace : List Nat
  lastRawPcs : List Nat
  outOfRangeCount : Nat
  lastNewAt : Nat
  uniqueAtIntervals : List (Nat × Nat)
  prevPc : Nat
  sampleCount : Nat
  sinceLastGlobalNew : Nat
  consecutiveIdle : Nat
  stoppedReason : Option StopReason
  deriving DecidableEq, Repr

/-- The state at the top of `_sampling_worker`: everything cleared,
`prev_pc` at the sentinel. -/
def initWorkerState : WorkerState :=
  { currentEdges := [], currentEdgeCounts := [], currentTrace := [],
    lastRawPcs := [], outOfRangeCount := 0, lastNewAt := 0,
    uniqueAtIntervals := [], prevPc := SENTINEL, sampleCount := 0,
    sinceLastGlobalNew := 0, consecutiveIdle := 0, stoppedReason := none }

/-- One loop iteration of `_sampling_worker` for a successful PC read
(lines 577-614): record the raw PC; for an in-range PC either initialize
`prev_pc` (no edge) or add the edge `(prev_pc, pc)`, bump its hit count and
update the global-new and idle counters; for an out-of-range PC only count it
and reset the idle counter; finally bump `sample_count` and take the interval
checkpoint. -/
def processSample (cfg : SamplerConfig) (globalEdges : List Edge)
    (idlePc : Option Nat) (st : WorkerState) (pc : Nat) : WorkerState :=
  let st := { st with lastRawPcs := st.lastRawPcs ++ [pc] }
  let st :=
    if in_range cfg pc then
      let st :=
        if st.prevPc = SENTINEL then
          { st with prevPc := pc, currentTrace := insertNew st.currentTrace pc }
        else
          let edge := (st.prevPc, pc)
          { st with
            currentEdges := insertNew st.currentEdges edge,
            currentEdgeCounts :=
              setA st.currentEdgeCounts edge (lookupD st.currentEdgeCounts edge 0 + 1),
            currentTrace := insertNew st.currentTrace pc,
            prevPc := pc,
            sinceLastGlobalNew :=
              if edge ∈ globalEdges then st.sinceLastGlobalNew + 1 else 0,
            lastNewAt := if edge ∈ globalEdges then st.lastNewAt else st.sampleCount }
      { st with consecutiveIdle := if idlePc = some pc then st.consecutiveIdle + 1 else 0 }
    else
      { st with outOfRangeCount := st.outOfRangeCount + 1, consecutiveIdle := 0 }
  let st := { st with sampleCount := st.sampleCount + 1 }
  if st.sampleCount ∈ INTERVAL_CHECKPOINTS then
    { st with
      uniqueAtIntervals := setA st.uniqueAtIntervals st.sampleCount st.currentEdges.length }
  else st

/-- The `_sampling_worker` loop (lines 574-641).  The outcome list supplies the
successive `_read_pc` results; its end models the external `stop_event`.
Failed reads do not count as samples.  Both early-stop checks sit under
`saturation_limit > 0`, exactly as in the source (line 619). -/
def sampling_worker (cfg : SamplerConfig) (globalEdges : List Edge)
    (idlePc : Option Nat) : WorkerState → List (Option Nat) → WorkerState
  | st, [] => { st with stoppedReason := some .stopEvent }
  | st, s :: rest =>
    if st.sampleCount < cfg.maxSamplesPerRun then
      match s with
      | none => sampling_worker cfg globalEdges idlePc st rest
      | some pc =>
        let st' := processSample cfg globalEdges idlePc st pc
        if 0 < cfg.saturationLimit ∧ 0 < cfg.globalSaturationLimit ∧
            cfg.globalSaturationLimit ≤ st'.sinceLastGlobalNew then
          { st' with stoppedReason := some .globalSaturated }
        else if 0 < cfg.saturationLimit ∧ idlePc.isSome ∧
            cfg.saturationLimit ≤ st'.consecutiveIdle then
          { st' with stoppedReason := some .idleSaturated }
        else sampling_worker cfg globalEdges idlePc st' rest
    else { st with stoppedReason := some .maxSamples }

/-- One full sampling run: the worker started on freshly cleared state. -/
def run_sampling_worker (cfg : SamplerConfig) (globalEdges : List Edge)
    (idlePc : Option Nat) (samples : List (Option Nat)) : WorkerState :=
  sampling_worker cfg globalEdges idlePc initWorkerState samples

/-- Consecutive pairs of a PC sequence: the edges a gap-free in-range run
would produce. -/
def listPairs : List Nat → List Edge
  | [] => []
  | [_] => []
  | a :: b :: rest => (a, b) :: listPairs (b :: rest)

/-- The subsequence of successfully read, in-range PCs of a run. -/
def inRangeSamples (cfg : SamplerConfig) (samples : List (Option Nat)) : List Nat :=
  (samples.filterMap id).filter (fun pc => in_range cfg pc)

/-- Number of successful PC reads in a run (failed reads are not counted by
`sample_count`). -/
def numSamples (samples : List (Option Nat)) : Nat :=
  (samples.filterMap id).length

/-- The `prev_pc` register rendered as a (zero- or one-element) PC prefix:
empty at the sentinel. -/
def prevSeq (st : WorkerState) : List Nat :=
  if st.prevPc = SENTINEL then [] else [st.prevPc]

/-! ### Concrete scenario data -/

/-- Run A of scenario C1: edges `{(0x100,0x104),(0x104,0x108)}`, one hit each. -/
def c1RunA : EvalResult :=
  evaluate_coverage 2 Store.empty
    [(0x100, 0x104), (0x104, 0x108)]
    [((0x100, 0x104), 1), ((0x104, 0x108), 1)]
    [0x100, 0x104, 0x108]

/-- Run B of scenario C1: edge `{(0x100,0x104)}` only. -/
def c1RunB : EvalResult :=
  evaluate_coverage 2 c1RunA.store
    [(0x100, 0x104)]
    [((0x100, 0x104), 1)]
    [0x100, 0x104]

/-- One run of scenario C4: the single edge `(0x200,0x204)` hit `n` times. -/
def c4Run (st : Store) (n : Nat) : EvalResult :=
  evaluate_coverage 1 st [(0x200, 0x204)] [((0x200, 0x204), n)] [0x200, 0x204]

/-- The successive stores of scenario C4 (per-run hit counts 1,1,1,1,3). -/
def c4A : EvalResult := c4Run Store.empty 1
def c4B : EvalResult := c4Run c4A.store 1
def c4C : EvalResult := c4Run c4B.store 1
def c4D : EvalResult := c4Run c4C.store 1
def c4E : EvalResult := c4Run c4D.store 3

/-- The edge used in the C5 counterexample. -/
def c5e : Edge := (0x300, 0x304)

/-- First of two identical `evaluate_coverage` calls, threshold 2, empty store. -/
def c5First : EvalResult := evaluate_coverage 2 Store.empty [c5e] [(c5e, 1)] [0x300, 0x304]

/-- Second identical call on the store left by the first. -/
def c5Second : EvalResult := evaluate_coverage 2 c5First.store [c5e] [(c5e, 1)] [0x300, 0x304]

/-- Configuration for the C2 counterexample: firmware window
`[0x100, 0x1FF]`, no saturation stops, ample sample budget. -/
def c2cfg : SamplerConfig :=
  { addrRangeStart := some 0x100, addrRangeEnd := some 0x1FF,
    maxSamplesPerRun := 100, saturationLimit := 0, globalSaturationLimit := 0 }

/-- The C2 counterexample run: in-range `0x100`, out-of-range `0x9999`,
in-range `0x104`. -/
def c2run : WorkerState :=
  run_sampling_worker c2cfg [] none [some 0x100, some 0x9999, some 0x104]

/-- Configuration for the C3 counterexample: `saturation_limit = 0`,
`global_saturation_limit = 1`. -/
def c3cfg : SamplerConfig :=
  { addrRangeStart := some 0x100, addrRangeEnd := some 0x1FF,
    maxSamplesPerRun := 100, saturationLimit := 0, globalSaturationLimit := 1 }

/-- The C3 counterexample run: every produced edge is already known globally,
so `since_last_global_new` reaches 2 while the limit is 1. -/
def c3run : WorkerState :=
  run_sampling_worker c3cfg [(0x100, 0x104), (0x104, 0x104)] none
    [some 0x100, some 0x104, some 0x104]

/-- Configuration for the C3 witness: both saturation limits set to 1. -/
def c3wcfg : SamplerConfig :=
  { addrRangeStart := some 0x100, addrRangeEnd := some 0x1FF,
    maxSamplesPerRun := 100, saturationLimit := 1, globalSaturationLimit := 1 }

/-! ### Corpus culling (`NVMeFuzzer._cull_corpus`, lines 1324-1373)

Only the seed fields read by culling are modelled; Python object identity
(`id(seed)`) is rendered as the seed's position in the corpus list. -/

/-- The seed fields `_cull_corpus` reads. -/
structure Seed where
  data : List Nat
  coveredEdges : List Edge
  execCount : Nat
  foundAt : Nat
  isFavored : Bool
  deriving DecidableEq, Repr

/-- Step 1 of culling: map each covered edge to the (position, seed) pair of
the minimum-payload-length seed covering it; strict `<` keeps the
first-encountered seed on ties. -/
def cullEdgeBest (corpus : List Seed) : List (Edge × (Nat × Seed)) :=
  corpus.enum.foldl (fun m p =>
    if p.2.coveredEdges = [] then m
    else p.2.coveredEdges.foldl (fun m e =>
      match lookupA m e with
      | none => setA m e p
      | some cur => if p.2.data.length < cur.2.data.length then setA m e p else m) m) []

/-- Stable descending insertion by `exec_count` (Python `sorted(...,
reverse=True)` is stable). -/
def insertByExecDesc (x : Seed) : List Seed → List Seed
  | [] => [x]
  | y :: rest =>
    if y.execCount ≤ x.execCount then x :: y :: rest else y :: insertByExecDesc x rest

/-- Python `sorted(seeds, key=exec_count, reverse=True)`. -/
def sortByExecDesc (l : List Seed) : List Seed := l.foldr insertByExecDesc []

/-- `NVMeFuzzer._cull_corpus` (lines 1324-1373): a corpus of at most 10 seeds
is left untouched; otherwise mark the minimum-length seed per covered edge as
favored, drop every seed that is neither favored nor fresh
(`exec_count < 2`) nor initial (`found_at == 0`), then enforce the optional
hard corpus limit keeping protected seeds plus the lowest-`exec_count`
evictable seeds. -/
def cull_corpus (maxCorpusHardLimit : Nat) (corpus : List Seed) : List Seed :=
  if corpus.length ≤ 10 then corpus
  else
    let edgeBest := cullEdgeBest corpus
    let favoredIdx := edgeBest.map (fun q => q.2.1)
    let marked := corpus.enum.map (fun p => { p.2 with isFavored := p.1 ∈ favoredIdx })
    let culled := marked.filter (fun s =>
      s.isFavored || decide (s.execCount < 2) || decide (s.foundAt = 0))
    if 0 < maxCorpusHardLimit ∧ maxCorpusHardLimit < culled.length then
      let protSeeds := culled.filter (fun s => decide (s.foundAt = 0) || s.isFavored)
      let evictable := sortByExecDesc
        (culled.filter (fun s => decide (0 < s.foundAt) && !s.isFavored))
      protSeeds ++ evictable.take (maxCorpusHardLimit - protSeeds.length)
    else culled

/-- The two covered edges of scenario C6. -/
def c6e1 : Edge := (0x500, 0x504)
def c6e2 : Edge := (0x600, 0x604)

/-- A scenario-C6 seed: equal payload lengths, `exec_count = 5`. -/
def mkC6Seed (cov : List Edge) (found : Nat) : Seed :=
  { data := [0, 0, 0, 0], coveredEdges := cov, execCount := 5,
    foundAt := found, isFavored := false }

/-- The corpus of claim C6: initial seeds A, B, C and discovered seeds D..H,
only A covering `e1` and only D covering `e2`. -/
def c6corpus8 : List Seed :=
  [mkC6Seed [c6e1] 0, mkC6Seed [] 0, mkC6Seed [] 0, mkC6Seed [c6e2] 1,
   mkC6Seed [] 2, mkC6Seed [] 3, mkC6Seed [] 4, mkC6Seed [] 5]

/-- The C6 scenario enlarged past the 10-seed guard: initial A, B, C and
discovered D..K (eight seeds), still with only A covering `e1` and only D
covering `e2`. -/
def c6corpus11 : List Seed :=
  [mkC6Seed [c6e1] 0, mkC6Seed [] 0, mkC6Seed [] 0, mkC6Seed [c6e2] 1,
   mkC6Seed [] 2, mkC6Seed [] 3, mkC6Seed [] 4, mkC6Seed [] 5,
   mkC6Seed [] 6, mkC6Seed [] 7, mkC6Seed [] 8]

/-! ### Calibration abort (`NVMeFuzzer._calibrate_seed` / `run`, claim C7) -/

/-- `NVMeFuzzer.RC_TIMEOUT` (line 1731). -/
def RC_TIMEOUT : Int := -1001

/-- `NVMeFuzzer.RC_ERROR` (line 1732). -/
def RC_ERROR : Int := -1002

/-- The loop control of `_calibrate_seed` (lines 945-959): run the seed up to
`calibration_runs` times, counting `actual_runs`, and break out of the loop as
soon as a run returns `RC_TIMEOUT` or `RC_ERROR`.  `rcs` supplies the
successive `_send_nvme_command` results (missing entries read as success 0). -/
def calibrate_seed_actual_runs (totalRuns : Nat) (rcs : List Int) : Nat :=
  match totalRuns with
  | 0 => 0
  | n + 1 =>
    let rc := rcs.headD 0
    if rc = RC_TIMEOUT ∨ rc = RC_ERROR then 1
    else 1 + calibrate_seed_actual_runs n rcs.tail

/-- `_calibrate_seed`'s effect on `NVMeFuzzer._timeout_crash`: none.  The flag
is initialized `False` (line 865) and assigned only inside the main fuzzing
loop (line 2774); nothing on the calibration path (lines 934-989) mutates it. -/
def calibrate_seed_timeout_crash (timeoutCrash : Bool) (_rcs : List Int) : Bool :=
  timeoutCrash

/-- The calibration phase of `run` (lines 2494-2523): calibrate each seed in
turn and abort (returning `false`, the fuzzing loop not entered) as soon as
`_timeout_crash` is observed set; if every seed passes the check, the fuzzing
loop is entered (`true`). -/
def calibration_phase_enters_loop (timeoutCrash : Bool) :
    List (List Int) → Bool
  | [] => true
  | rcs :: rest =>
    let tc := calibrate_seed_timeout_crash timeoutCrash rcs
    if tc then false else calibration_phase_enters_loop tc rest

/-! ### Deterministic stage (`NVMeFuzzer._deterministic_stage`, lines 995-1038) -/

/-- The six command dwords `cdw10..cdw15` walked by the deterministic stage. -/
structure Cdws where
  cdw10 : Nat
  cdw11 : Nat
  cdw12 : Nat
  cdw13 : Nat
  cdw14 : Nat
  cdw15 : Nat
  deriving DecidableEq, Repr

/-- `getattr(seed, cdw_fields[f])`. -/
def Cdws.get (c : Cdws) : Nat → Nat
  | 0 => c.cdw10
  | 1 => c.cdw11
  | 2 => c.cdw12
  | 3 => c.cdw13
  | 4 => c.cdw14
  | _ => c.cdw15

/-- `setattr(clone, cdw_fields[f], v)` on a fresh clone of the seed. -/
def Cdws.set (c : Cdws) (f v : Nat) : Cdws :=
  match f with
  | 0 => { c with cdw10 := v }
  | 1 => { c with cdw11 := v }
  | 2 => { c with cdw12 := v }
  | 3 => { c with cdw13 := v }
  | 4 => { c with cdw14 := v }
  | _ => { c with cdw15 := v }

/-- `NVMeFuzzer.INTERESTING_8` (line 1380). -/
def INTERESTING_8 : List Int := [-128, -1, 0, 1, 16, 32, 64, 100, 127]

/-- `NVMeFuzzer.INTERESTING_32` (lines 1382-1383). -/
def INTERESTING_32 : List Int :=
  [-2147483648, -100663046, -32769, 32768, 65535, 65536, 100663045, 2147483647]

/-- Python `x & 0xFFFFFFFF` on a possibly negative int. -/
def mask32 (x : Int) : Nat := (x % (2 ^ 32 : Int)).toNat

/-- Python `x & 0xFF` on a possibly negative int. -/
def mask8 (x : Int) : Nat := (x % (256 : Int)).toNat

/-- `NVMeFuzzer._deterministic_stage` (lines 995-1038), flattened from a
generator to the list of emitted seeds: for each non-zero CDW field, walking
bit flips (bits 0..31), alternating `+delta` / `-delta` arithmetic for
`delta = 1..deterministic_arith_max`, then the 32-bit interesting values;
afterwards, for every CDW field (zero or not), each byte lane times each 8-bit
interesting value, skipping results equal to the original. -/
def deterministic_stage (seed : Cdws) (arithMax : Nat) : List Cdws :=
  let fields : List Nat := [0, 1, 2, 3, 4, 5]
  let phase123 := fields.flatMap (fun f =>
    let original := seed.get f
    if original = 0 then []
    else
      ((List.range 32).map (fun bit => seed.set f (original ^^^ (1 <<< bit))))
        ++ ((List.range arithMax).flatMap (fun i =>
          [seed.set f ((original + (i + 1)) % 2 ^ 32),
           seed.set f (mask32 ((original : Int) - ((i : Int) + 1)))]))
        ++ (INTERESTING_32.map (fun v => seed.set f (mask32 v))))
  let phase4 := fields.flatMap (fun f =>
    let original := seed.get f
    ([0, 8, 16, 24] : List Nat).flatMap (fun shift =>
      INTERESTING_8.filterMap (fun v =>
        let mask := 0xFF <<< shift
        let newVal := (original &&& (0xFFFFFFFF ^^^ mask)) ||| (mask8 v <<< shift)
        if newVal ≠ original then some (seed.set f (newVal % 2 ^ 32)) else none)))
  phase123 ++ phase4

/-- The seed of claim C8: `cdw10 = 5`, all other CDW fields zero. -/
def c8seed : Cdws :=
  { cdw10 := 5, cdw11 := 0, cdw12 := 0, cdw13 := 0, cdw14 := 0, cdw15 := 0 }

/-- The deterministic emissions claimed by C8, written from the claim's words:
the 32 walking-bit-flip variants of `cdw10`, the arithmetic variants
(alternating `+delta`, `-delta`, `delta = 1..10`), the 32-bit interesting
assignments to `cdw10`, and the four byte-lane times interesting-8
assignments to `cdw10` skipping values equal to the original — and nothing
else.  Kept for comparison against `deterministic_stage`. -/
def c8ClaimedCdw10Sequence : List Cdws :=
  ((List.range 32).map (fun bit => { c8seed with cdw10 := 5 ^^^ (1 <<< bit) }))
    ++ ((List.range 10).flatMap (fun i =>
      [{ c8seed with cdw10 := (5 + (i + 1)) % 2 ^ 32 },
       { c8seed with cdw10 := mask32 (5 - ((i : Int) + 1)) }]))
    ++ (INTERESTING_32.map (fun v => { c8seed with cdw10 := mask32 v }))
    ++ (([0, 8, 16, 24] : List Nat).flatMap (fun shift =>
      INTERESTING_8.filterMap (fun v =>
        let newVal := ((5 : Nat) &&& (0xFFFFFFFF ^^^ (0xFF <<< shift)))
          ||| (mask8 v <<< shift)
        if newVal ≠ 5 then some { c8seed with cdw10 := newVal } else none)))

/-- The emissions the claim omits: byte-lane times interesting-8 assignments
for the zero fields `cdw11..cdw15` (the byte-lane phase of the source loops
over all six CDW fields, not only the non-zero ones). -/
def c8ZeroFieldByteLanes : List Cdws :=
  ([1, 2, 3, 4, 5] : List Nat).flatMap (fun f =>
    ([0, 8, 16, 24] : List Nat).flatMap (fun shift =>
      INTERESTING_8.filterMap (fun v =>
        let newVal := ((0 : Nat) &&& (0xFFFFFFFF ^^^ (0xFF <<< shift)))
          ||| (mask8 v <<< shift)
        if newVal ≠ 0 then some (c8seed.set f newVal) else none)))

/-- Deterministic-queue consumption in `run` (lines 2568-2582): one emission
per iteration; the iteration after the queue drains observes `StopIteration`
and sets `det_done`. -/
def det_done_after (queueLen iterations : Nat) : Bool := decide (queueLen < iterations)

/-! ### `_read_pc` (claim C10) -/

/-- The probe calls `_read_pc` can attempt. -/
inductive ProbeAction where
  | halt
  | readReg
  | go
  deriving DecidableEq, Repr

/-- One outcome of the underlying probe calls: whether `JLINKARM_Halt` returns
without raising, what `JLINKARM_ReadReg` would yield (`none` = raises), and
whether `JLINKARM_Go` returns without raising. -/
structure ProbeOutcome where
  haltOk : Bool
  readResult : Option Nat
  goOk : Bool
  deriving DecidableEq, Repr

/-- `JLinkPCSampler._read_pc` (lines 505-516): `try` halt-then-read returning
the PC, `except` anything returning `None`, and a `finally` block that always
attempts `_go_func` (resume), swallowing its own failure.  Besides the result,
the model returns the ordered trace of probe calls attempted; `goOk` is
irrelevant to both, which is exactly the swallowing. -/
def read_pc (o : ProbeOutcome) : Option Nat × List ProbeAction :=
  if o.haltOk then
    match o.readResult with
    | some pc => (some pc, [.halt, .readReg, .go])
    | none => (none, [.halt, .readReg, .go])
  else (none, [.halt, .go])

/-! ### Coverage persistence (`save_coverage` / `load_coverage`, claim C9)

The three text files are modelled structurally: one entry per line, each
line pre-split at the commas (hex digits never contain a comma, so Python's
`split(',')` inverts the `f"{...},{...}"` join).  The numeric rendering and
parsing — Python `hex(n)` / `str(n)` on writing and `int(s, 16)` / `int(s)`
on reading — are modelled down to the characters. -/

/-- The character Python uses for digit `d` (lowercase hex). -/
def digitChar (d : Nat) : Char :=
  if d < 10 then Char.ofNat (48 + d) else Char.ofNat (87 + d)

/-- The value of one digit character accepted by Python `int(s, 16)`
(decimal digits, lowercase and uppercase hex letters). -/
def charVal (c : Char) : Option Nat :=
  if 48 ≤ c.toNat ∧ c.toNat ≤ 57 then some (c.toNat - 48)
  else if 97 ≤ c.toNat ∧ c.toNat ≤ 102 then some (c.toNat - 87)
  else if 65 ≤ c.toNat ∧ c.toNat ≤ 70 then some (c.toNat - 55)
  else none

/-- Big-endian digits of `n` in `base` (empty for 0). -/
def natDigitsBE (base n : Nat) : List Nat := (Nat.digits base n).reverse

/-- Python `hex(n)` for a non-negative `n`: `0x` followed by lowercase
hex digits (`hex(0) = "0x0"`). -/
def natToHexChars (n : Nat) : List Char :=
  '0' :: 'x' :: (if n = 0 then ['0'] else (natDigitsBE 16 n).map digitChar)

/-- Python `str(n)` for a non-negative `n`. -/
def natToDecChars (n : Nat) : List Char :=
  if n = 0 then ['0'] else (natDigitsBE 10 n).map digitChar

/-- Digit-string accumulator of Python `int(s, base)`. -/
def parseDigitsAux (base acc : Nat) : List Char → Option Nat
  | [] => some acc
  | c :: rest =>
    match charVal c with
    | some d => if d < base then parseDigitsAux base (acc * base + d) rest else none
    | none => none

/-- Python `int(s, 16)` on the line contents the fuzzer reads back:
an optional `0x` prefix, then at least one hex digit (`ValueError` = `none`). -/
def parseHex (cs : List Char) : Option Nat :=
  let body := if cs.take 2 = ['0', 'x'] then cs.drop 2 else cs
  if body.isEmpty then none else parseDigitsAux 16 0 body

/-- Python `int(s)` on a count field. -/
def parseDec (cs : List Char) : Option Nat :=
  if cs.isEmpty then none else parseDigitsAux 10 0 cs

/-- Ordered insertion for the model of Python `sorted`. -/
def insertSorted {α : Type} (le : α → α → Bool) (a : α) : List α → List α
  | [] => [a]
  | b :: rest => if le a b then a :: b :: rest else b :: insertSorted le a rest

/-- Python `sorted(l)` under the total preorder `le`. -/
def sortList {α : Type} (le : α → α → Bool) (l : List α) : List α :=
  l.foldr (insertSorted le) []

/-- Numeric order on PCs. -/
def natLe (a b : Nat) : Bool := decide (a ≤ b)

/-- Python tuple order on edges. -/
def edgeLe (a b : Edge) : Bool :=
  decide (a.1 < b.1) || (decide (a.1 = b.1) && decide (a.2 ≤ b.2))

/-- Python tuple order on `global_edge_counts.items()` entries. -/
def countEntryLe (a b : Edge × Nat) : Bool :=
  decide (a.1.1 < b.1.1) ||
    (decide (a.1.1 = b.1.1) && (decide (a.1.2 < b.1.2) ||
      (decide (a.1.2 = b.1.2) && decide (a.2 ≤ b.2))))

/-- The three files written by `save_coverage`: `coverage.txt`,
`coverage_edges.txt` and `coverage_edge_counts.txt`, each a list of lines,
multi-field lines pre-split at the commas. -/
structure CoverageFiles where
  pcLines : List (List Char)
  edgeLines : List (List (List Char))
  countLines : List (List (List Char))
  deriving DecidableEq, Repr

/-- `JLinkPCSampler.save_coverage` (lines 779-801): sorted PCs in hex, sorted
confirmed edges as `hex,hex`, sorted cumulative counts as `hex,hex,count`. -/
def save_coverage (st : Store) : CoverageFiles :=
  { pcLines := (sortList natLe st.globalCoverage).map natToHexChars,
    edgeLines := (sortList edgeLe st.globalEdges).map
      (fun e => [natToHexChars e.1, natToHexChars e.2]),
    countLines := (sortList countEntryLe st.globalEdgeCounts).map
      (fun p => [natToHexChars p.1.1, natToHexChars p.1.2, natToDecChars p.2]) }

/-- One line of `coverage.txt` on load: parse as hex, add to the PC set,
skip unparsable lines. -/
def loadPcStep (st : Store) (line : List Char) : Store :=
  match parseHex line with
  | some pc => { st with globalCoverage := insertNew st.globalCoverage pc }
  | none => st

/-- One line of `coverage_edges.txt` on load: need at least two fields, both
hex; add the edge, skip bad lines. -/
def loadEdgeStep (st : Store) (fields : List (List Char)) : Store :=
  match fields with
  | f1 :: f2 :: _ =>
    match parseHex f1, parseHex f2 with
    | some p, some c => { st with globalEdges := insertNew st.globalEdges (p, c) }
    | _, _ => st
  | _ => st

/-- One line of `coverage_edge_counts.txt` on load: two hex fields and a
decimal count; assign the count and recompute the bucket, skip bad lines. -/
def loadCountStep (st : Store) (fields : List (List Char)) : Store :=
  match fields with
  | f1 :: f2 :: f3 :: _ =>
    match parseHex f1, parseHex f2, parseDec f3 with
    | some p, some c, some n =>
      { st with globalEdgeCounts := setA st.globalEdgeCounts (p, c) n,
                globalEdgeBuckets := setA st.globalEdgeBuckets (p, c) (count_to_bucket n) }
    | _, _, _ => st
  | _ => st

/-- `JLinkPCSampler.load_coverage` (lines 717-777): fold the three files into
the store, PCs first, then edges, then counts. -/
def load_coverage (st : Store) (files : CoverageFiles) : Store :=
  let st1 := files.pcLines.foldl loadPcStep st
  let st2 := files.edgeLines.foldl loadEdgeStep st1
  files.countLines.foldl loadCountStep st2

/-- The store used by the C9 witness. -/
def c9wStore : Store :=
  { globalEdges := [(0x10, 0x14), (0x14, 0x18)],
    globalEdgePending := [],
    globalEdgeCounts := [((0x10, 0x14), 5), ((0x14, 0x18), 3)],
    globalEdgeBuckets := [((0x10, 0x14), 8), ((0x14, 0x18), 4)],
    globalCoverage := [0x10, 0x14, 0x18] }

end PCFuzz

namespace PCFuzz

/-! ### Unfolding lemmas for the worker loop -/

theorem sampling_worker_nil (cfg : SamplerConfig) (ge : List Edge)
    (ip : Option Nat) (st : WorkerState) :
    sampling_worker cfg ge ip st [] = { st with stoppedReason := some .stopEvent } :=
  rfl

theorem sampling_worker_cons_none (cfg : SamplerConfig) (ge : List Edge)
    (ip : Option Nat) (st : WorkerState) (rest : List (Option Nat)) :
    sampling_worker cfg ge ip st (none :: rest) =
      if st.sampleCount < cfg.maxSamplesPerRun then
        sampling_worker cfg ge ip st rest
      else { st with stoppedReason := some .maxSamples } :=
  rfl

theorem sampling_worker_cons_some (cfg : SamplerConfig) (ge : List Edge)
    (ip : Option Nat) (st : WorkerState) (pc : Nat) (rest : List (Option Nat)) :
    sampling_worker cfg ge ip st (some pc :: rest) =
      if st.sampleCount < cfg.maxSamplesPerRun then
        if 0 < cfg.saturationLimit ∧ 0 < cfg.globalSaturationLimit ∧
            cfg.globalSaturationLimit
              ≤ (processSample cfg ge ip st pc).sinceLastGlobalNew then
          { processSample cfg ge ip st pc with stoppedReason := some .globalSaturated }
        else if 0 < cfg.saturationLimit ∧ ip.isSome ∧
            cfg.saturationLimit ≤ (processSample cfg ge ip st pc).consecutiveIdle then
          { processSample cfg ge ip st pc with stoppedReason := some .idleSaturated }
        else sampling_worker cfg ge ip (processSample cfg ge ip st pc) rest
      else { st with stoppedReason := some .maxSamples } :=
  rfl

/-! ### Worker projections -/

theorem processSample_inRange_sent (cfg : SamplerConfig) (ge : List Edge)
    (ip : Option Nat) (st : WorkerState) (pc : Nat)
    (h1 : in_range cfg pc = true) (h2 : st.prevPc = SENTINEL) :
    (processSample cfg ge ip st pc).currentEdges = st.currentEdges ∧
    (processSample cfg ge ip st pc).prevPc = pc ∧
    (processSample cfg ge ip st pc).sampleCount = st.sampleCount + 1 := by
  unfold processSample
  dsimp only
  refine ⟨?_, ?_, ?_⟩ <;> (repeat' split) <;> simp_all

theorem processSample_inRange_edge (cfg : SamplerConfig) (ge : List Edge)
    (ip : Option Nat) (st : WorkerState) (pc : Nat)
    (h1 : in_range cfg pc = true) (h2 : ¬ st.prevPc = SENTINEL) :
    (processSample cfg ge ip st pc).currentEdges
      = insertNew st.currentEdges (st.prevPc, pc) ∧
    (processSample cfg ge ip st pc).prevPc = pc ∧
    (processSample cfg ge ip st pc).sampleCount = st.sampleCount + 1 := by
  unfold processSample
  dsimp only
  refine ⟨?_, ?_, ?_⟩ <;> (repeat' split) <;> simp_all

theorem processSample_outOfRange (cfg : SamplerConfig) (ge : List Edge)
    (ip : Option Nat) (st : WorkerState) (pc : Nat)
    (h1 : ¬ in_range cfg pc = true) :
    (processSample cfg ge ip st pc).currentEdges = st.currentEdges ∧
    (processSample cfg ge ip st pc).prevPc = st.prevPc ∧
    (processSample cfg ge ip st pc).sampleCount = st.sampleCount + 1 := by
  unfold processSample
  dsimp only
  refine ⟨?_, ?_, ?_⟩ <;> (repeat' split) <;> simp_all

theorem inRangeSamples_nil (cfg : SamplerConfig) : inRangeSamples cfg [] = [] := rfl

theorem inRangeSamples_cons_none (cfg : SamplerConfig) (rest : List (Option Nat)) :
    inRangeSamples cfg (none :: rest) = inRangeSamples cfg rest := rfl

theorem inRangeSamples_cons_some (cfg : SamplerConfig) (pc : Nat)
    (rest : List (Option Nat)) :
    inRangeSamples cfg (some pc :: rest)
      = if in_range cfg pc then pc :: inRangeSamples cfg rest
        else inRangeSamples cfg rest := by
  unfold inRangeSamples
  have h : (some pc :: rest).filterMap id = pc :: rest.filterMap id := by simp
  rw [h, List.filter_cons]

theorem listPairs_prefix_nil_or_single (l : List Nat) (hl : l.length ≤ 1) :
    listPairs l = [] := by
  match l, hl with
  | [], _ => rfl
  | [_], _ => rfl

theorem numSamples_zero_inRangeSamples (cfg : SamplerConfig)
    (samples : List (Option Nat)) (h : numSamples samples = 0) :
    inRangeSamples cfg samples = [] := by
  unfold numSamples at h
  unfold inRangeSamples
  rw [List.length_eq_zero.mp h]
  rfl

theorem prevSeq_length_le_one (st : WorkerState) : (prevSeq st).length ≤ 1 := by
  unfold prevSeq; split <;> simp

/-! ### Claim C2 -/

/-- Claim C2 counterexample: an in-range sample, an out-of-range sample, then
an in-range sample DO produce the edge `(0x100, 0x104)` spanning the
out-of-range sample, because the out-of-range branch leaves `prev_pc` intact —
the claim says no edge spans an out-of-range sample. -/
theorem c2_counterexample_edge_spans_gap :
    c2run.currentEdges = [(0x100, 0x104)] ∧ c2run.outOfRangeCount = 1 := by
  decide

theorem mem_insertNew {α : Type} [DecidableEq α] (s : List α) (a b : α) :
    a ∈ insertNew s b ↔ a ∈ s ∨ a = b := by
  unfold insertNew
  split
  · rename_i hb
    constructor
    · exact Or.inl
    · rintro (h | rfl)
      · exact h
      · exact hb
  · simp [List.mem_append]

/-- Claim C2 (amended), general form: as long as neither saturation stop is
armed (`saturation_limit = 0` disables both) and the sample budget covers the
run, the edges of a run are exactly the consecutive pairs of the in-range PC
subsequence seen after `prev_pc`.  Out-of-range samples and failed reads do
not reset `prev_pc`, so edges do span them. -/
theorem sampling_worker_edges_characterization (cfg : SamplerConfig)
    (ge : List Edge) (ip : Option Nat) (hsat : cfg.saturationLimit = 0) :
    ∀ (samples : List (Option Nat)) (st : WorkerState),
      st.sampleCount + numSamples samples ≤ cfg.maxSamplesPerRun →
      (∀ pc, some pc ∈ samples → in_range cfg pc = true → pc ≠ SENTINEL) →
      ∀ e, e ∈ (sampling_worker cfg ge ip st samples).currentEdges ↔
        e ∈ st.currentEdges ∨ e ∈ listPairs (prevSeq st ++ inRangeSamples cfg samples) := by
  intro samples
  induction samples with
  | nil =>
    intro st _ _ e
    rw [sampling_worker_nil]
    show e ∈ st.currentEdges ↔ _
    rw [inRangeSamples_nil, List.append_nil,
      listPairs_prefix_nil_or_single (prevSeq st) (prevSeq_length_le_one st)]
    simp
  | cons s rest ih =>
    intro st hcount hsent e
    match s with
    | none =>
      rw [sampling_worker_cons_none]
      have hns : numSamples (none :: rest) = numSamples rest := rfl
      split
      · rw [ih st (by omega) (fun pc hm hr => hsent pc (List.mem_cons_of_mem _ hm) hr) e,
          inRangeSamples_cons_none]
      · rename_i hge
        have h0 : numSamples (none :: rest) = 0 := by omega
        show e ∈ st.currentEdges ↔ _
        rw [numSamples_zero_inRangeSamples cfg _ h0, List.append_nil,
          listPairs_prefix_nil_or_single (prevSeq st) (prevSeq_length_le_one st)]
        simp
    | some pc =>
      have hns : numSamples (some pc :: rest) = numSamples rest + 1 := by
        simp [numSamples]
      rw [sampling_worker_cons_some]
      rw [if_pos (by omega)]
      rw [if_neg (by simp [hsat]), if_neg (by simp [hsat])]
      by_cases h1 : in_range cfg pc = true
      · by_cases h2 : st.prevPc = SENTINEL
        · obtain ⟨he, hp, hn⟩ := processSample_inRange_sent cfg ge ip st pc h1 h2
          rw [ih _ (by omega)
              (fun q hm hr => hsent q (List.mem_cons_of_mem _ hm) hr) e]
          rw [he, inRangeSamples_cons_some, if_pos h1]
          have hpcs : pc ≠ SENTINEL :=
            hsent pc (List.mem_cons_self _ _) h1
          have hpre : prevSeq (processSample cfg ge ip st pc) = [pc] := by
            unfold prevSeq
            rw [hp, if_neg hpcs]
          have hpre0 : prevSeq st = [] := by
            unfold prevSeq; rw [if_pos h2]
          rw [hpre, hpre0]
          rfl
        · obtain ⟨he, hp, hn⟩ := processSample_inRange_edge cfg ge ip st pc h1 h2
          rw [ih _ (by omega)
              (fun q hm hr => hsent q (List.mem_cons_of_mem _ hm) hr) e]
          rw [he, inRangeSamples_cons_some, if_pos h1]
          have hpcs : pc ≠ SENTINEL :=
            hsent pc (List.mem_cons_self _ _) h1
          have hpre : prevSeq (processSample cfg ge ip st pc) = [pc] := by
            unfold prevSeq
            rw [hp, if_neg hpcs]
          have hpre0 : prevSeq st = [st.prevPc] := by
            unfold prevSeq; rw [if_neg h2]
          rw [hpre, hpre0, mem_insertNew]
          show (e ∈ st.currentEdges ∨ e = (st.prevPc, pc)) ∨
              e ∈ listPairs (pc :: inRangeSamples cfg rest) ↔
            e ∈ st.currentEdges ∨
              e ∈ (st.prevPc, pc) :: listPairs (pc :: inRangeSamples cfg rest)
          simp only [List.mem_cons]
          tauto
      · obtain ⟨he, hp, hn⟩ := processSample_outOfRange cfg ge ip st pc h1
        rw [ih _ (by omega)
            (fun q hm hr => hsent q (List.mem_cons_of_mem _ hm) hr) e]
        rw [he, inRangeSamples_cons_some, if_neg h1]
        have hpre : prevSeq (processSample cfg ge ip st pc) = prevSeq st := by
          unfold prevSeq; rw [hp]
        rw [hpre]

/-- Claim C2 (amended): within a single run with saturation stops disabled and
the sample budget covering the run, the run's edge set is exactly the set of
consecutive pairs of the in-range sample subsequence: two consecutive in-range
samples yield exactly the edge between them, the first in-range sample yields
no edge, and `prev_pc` starts at the sentinel each run (never carried over) —
but since out-of-range samples do not reset `prev_pc`, an in-range sample,
an out-of-range sample, then an in-range sample DOES yield the edge joining
the two in-range samples, spanning the out-of-range one. -/
theorem c2_run_edges_are_consecutive_in_range_pairs (cfg : SamplerConfig)
    (ge : List Edge) (ip : Option Nat) (samples : List (Option Nat)) (e : Edge)
    (hsat : cfg.saturationLimit = 0)
    (hmax : numSamples samples ≤ cfg.maxSamplesPerRun)
    (hsent : ∀ pc, some pc ∈ samples → in_range cfg pc = true → pc ≠ SENTINEL) :
    e ∈ (run_sampling_worker cfg ge ip samples).currentEdges ↔
      e ∈ listPairs (inRangeSamples cfg samples) := by
  have h0 : initWorkerState.sampleCount + numSamples samples
      ≤ cfg.maxSamplesPerRun := by
    show 0 + numSamples samples ≤ _
    omega
  rw [run_sampling_worker,
    sampling_worker_edges_characterization cfg ge ip hsat samples initWorkerState
      h0 hsent e]
  show e ∈ ([] : List Edge) ∨ e ∈ listPairs (prevSeq initWorkerState ++ _) ↔ _
  have hps : prevSeq initWorkerState = [] := rfl
  rw [hps]
  simp

/-- Witness for the amended C2 theorem at a concrete run: two in-range samples
`0x100, 0x104` under window `[0x100, 0x1FF]` give exactly the pair list
`[(0x100, 0x104)]`. -/
theorem c2_run_edges_witness :
    (0x100, 0x104) ∈ (run_sampling_worker c2cfg [] none
        [some 0x100, some 0x104]).currentEdges ↔
      (0x100, 0x104) ∈ listPairs (inRangeSamples c2cfg [some 0x100, some 0x104]) :=
  c2_run_edges_are_consecutive_in_range_pairs c2cfg [] none
    [some 0x100, some 0x104] (0x100, 0x104) (by decide) (by decide)
    (by
      intro pc hm _
      simp only [List.mem_cons, List.not_mem_nil, or_false, Option.some.injEq] at hm
      rcases hm with rfl | rfl <;> decide)

/-! ### Claim C3 -/

/-- Claim C3 counterexample: with `saturation_limit = 0` and
`global_saturation_limit = 1`, the counter of consecutive not-new-to-global
samples reaches 2 ≥ 1 yet the worker runs to the end of its input and stops
with `stop_event`, not `global_saturated` — the claim says the stop fires for
every value of `saturation_limit` including 0. -/
theorem c3_counterexample_no_stop_when_saturation_limit_zero :
    c3run.stoppedReason = some .stopEvent ∧ c3run.sinceLastGlobalNew = 2 := by
  decide

/-- With both saturation limits armed the worker keeps
`since_last_global_new` strictly below the global limit until the moment it
reaches it, at which point it stops at once with `global_saturated`. -/
theorem sampling_worker_globalSat_iff (cfg : SamplerConfig) (ge : List Edge)
    (ip : Option Nat) (hs : 0 < cfg.saturationLimit)
    (hg : 0 < cfg.globalSaturationLimit) :
    ∀ (samples : List (Option Nat)) (st : WorkerState),
      st.sinceLastGlobalNew < cfg.globalSaturationLimit →
      ((sampling_worker cfg ge ip st samples).stoppedReason
          = some .globalSaturated ↔
        cfg.globalSaturationLimit
          ≤ (sampling_worker cfg ge ip st samples).sinceLastGlobalNew) := by
  intro samples
  induction samples with
  | nil =>
    intro st hlt
    rw [sampling_worker_nil]
    show some StopReason.stopEvent = some StopReason.globalSaturated ↔
      cfg.globalSaturationLimit ≤ st.sinceLastGlobalNew
    simp
    omega
  | cons s rest ih =>
    intro st hlt
    match s with
    | none =>
      rw [sampling_worker_cons_none]
      split
      · exact ih st hlt
      · show some StopReason.maxSamples = some StopReason.globalSaturated ↔
          cfg.globalSaturationLimit ≤ st.sinceLastGlobalNew
        simp
        omega
    | some pc =>
      rw [sampling_worker_cons_some]
      split
      · split
        · rename_i hcond
          show some StopReason.globalSaturated = some StopReason.globalSaturated ↔
            cfg.globalSaturationLimit
              ≤ (processSample cfg ge ip st pc).sinceLastGlobalNew
          simp
          exact hcond.2.2
        · rename_i hcond
          split
          · show some StopReason.idleSaturated = some StopReason.globalSaturated ↔
              cfg.globalSaturationLimit
                ≤ (processSample cfg ge ip st pc).sinceLastGlobalNew
            simp
            exact Nat.not_le.mp (fun hle => hcond ⟨hs, hg, hle⟩)
          · refine ih _ ?_
            have hnot : ¬ cfg.globalSaturationLimit
                ≤ (processSample cfg ge ip st pc).sinceLastGlobalNew :=
              fun hle => hcond ⟨hs, hg, hle⟩
            omega
      · show some StopReason.maxSamples = some StopReason.globalSaturated ↔
          cfg.globalSaturationLimit ≤ st.sinceLastGlobalNew
        simp
        omega

/-- Claim C3 (amended): the `global_saturated` stop fires only when
`saturation_limit > 0` as well (both checks sit under that guard in the
source); when both limits are positive, the worker stops with reason
`global_saturated` exactly when its consecutive not-new-to-global counter has
reached `global_saturation_limit` — it never runs past that point. -/
theorem c3_global_saturation_stop_iff (cfg : SamplerConfig) (ge : List Edge)
    (ip : Option Nat) (samples : List (Option Nat))
    (hs : 0 < cfg.saturationLimit) (hg : 0 < cfg.globalSaturationLimit) :
    (run_sampling_worker cfg ge ip samples).stoppedReason
        = some .globalSaturated ↔
      cfg.globalSaturationLimit
        ≤ (run_sampling_worker cfg ge ip samples).sinceLastGlobalNew :=
  sampling_worker_globalSat_iff cfg ge ip hs hg samples initWorkerState hg

/-- Witness for the amended C3 theorem: with both limits 1 and a known global
edge, the run stops with `global_saturated` the moment the counter reaches 1. -/
theorem c3_global_saturation_stop_witness :
    (0 : Nat) < c3wcfg.saturationLimit ∧
    ((run_sampling_worker c3wcfg [(0x100, 0x104)] none
        [some 0x100, some 0x104]).stoppedReason = some .globalSaturated ↔
      c3wcfg.globalSaturationLimit
        ≤ (run_sampling_worker c3wcfg [(0x100, 0x104)] none
            [some 0x100, some 0x104]).sinceLastGlobalNew) :=
  ⟨by decide,
    c3_global_saturation_stop_iff c3wcfg [(0x100, 0x104)] none
      [some 0x100, some 0x104] (by decide) (by decide)⟩

/-! ### Claim C5 and supporting facts about evaluation -/

theorem evalEdgeStep_globalEdges_mono (t : Nat) (st : Store) (n : Nat)
    (e a : Edge) (ha : a ∈ st.globalEdges) :
    a ∈ (evalEdgeStep t (st, n) e).1.globalEdges := by
  unfold evalEdgeStep
  dsimp only
  split
  · exact ha
  · split
    · exact (mem_insertNew _ _ _).mpr (Or.inl ha)
    · exact ha

theorem subset_foldl_evalEdgeStep (t : Nat) (E : List Edge) :
    ∀ (st : Store) (n : Nat) (a : Edge), a ∈ st.globalEdges →
      a ∈ (E.foldl (evalEdgeStep t) (st, n)).1.globalEdges := by
  induction E with
  | nil => intro st n a ha; exact ha
  | cons e rest ih =>
    intro st n a ha
    rw [List.foldl_cons]
    rcases h : evalEdgeStep t (st, n) e with ⟨st', n'⟩
    have ha' : a ∈ st'.globalEdges := by
      have hm := evalEdgeStep_globalEdges_mono t st n e a ha
      rw [h] at hm; exact hm
    exact ih st' n' a ha'

/-- With `edge_confirm_threshold = 1` every edge of the run is confirmed by the
confirmation pass: either it already was, or its pending count `≥ 1` promotes
it immediately. -/
theorem mem_foldl_evalEdgeStep_one (E : List Edge) :
    ∀ (st : Store) (n : Nat) (e : Edge), e ∈ E →
      e ∈ (E.foldl (evalEdgeStep 1) (st, n)).1.globalEdges := by
  induction E with
  | nil => intro _ _ _ h; cases h
  | cons x rest ih =>
    intro st n e he
    rw [List.foldl_cons]
    have hstep : ∀ st n, x ∈ (evalEdgeStep 1 (st, n) x).1.globalEdges := by
      intro st n
      unfold evalEdgeStep
      dsimp only
      split
      · assumption
      · split
        · exact (mem_insertNew _ _ _).mpr (Or.inr rfl)
        · rename_i hnot
          exact absurd (Nat.le_add_left 1 _) hnot
    rcases List.mem_cons.mp he with h | h
    · rcases hs : evalEdgeStep 1 (st, n) x with ⟨st', n'⟩
      have hx : x ∈ st'.globalEdges := by
        have hm := hstep st n
        rw [hs] at hm; exact hm
      rw [h]
      exact subset_foldl_evalEdgeStep 1 rest st' n' x hx
    · rcases hs : evalEdgeStep 1 (st, n) x with ⟨st', n'⟩
      exact ih st' n' e h

/-- The hit-count pass never touches the confirmed-edge set. -/
theorem evalCountStep_globalEdges (acc : Store × Nat) (p : Edge × Nat) :
    (evalCountStep acc p).1.globalEdges = acc.1.globalEdges := by
  rcases acc with ⟨st, n⟩
  rcases p with ⟨e, c⟩
  unfold evalCountStep
  dsimp only
  split
  · split
    · rfl
    · rfl
  · rfl

theorem foldl_evalCountStep_globalEdges (C : List (Edge × Nat)) :
    ∀ (acc : Store × Nat),
      (C.foldl evalCountStep acc).1.globalEdges = acc.1.globalEdges := by
  induction C with
  | nil => intro _; rfl
  | cons p rest ih =>
    intro acc
    rw [List.foldl_cons, ih (evalCountStep acc p), evalCountStep_globalEdges]

/-- An already-confirmed edge is skipped by the confirmation pass. -/
theorem evalEdgeStep_skip (t : Nat) (st : Store) (n : Nat) (e : Edge)
    (he : e ∈ st.globalEdges) : evalEdgeStep t (st, n) e = (st, n) := by
  unfold evalEdgeStep
  simp [he]

theorem foldl_evalEdgeStep_all_mem (t : Nat) (E : List Edge) :
    ∀ (st : Store) (n : Nat), (∀ e ∈ E, e ∈ st.globalEdges) →
      E.foldl (evalEdgeStep t) (st, n) = (st, n) := by
  induction E with
  | nil => intro st n _; rfl
  | cons x rest ih =>
    intro st n h
    rw [List.foldl_cons, evalEdgeStep_skip t st n x (h x (List.mem_cons_self x rest))]
    exact ih st n (fun e he => h e (List.mem_cons_of_mem x he))

/-- Every edge of `current_edges` is confirmed after an
`evaluate_coverage` call with threshold 1. -/
theorem mem_globalEdges_after_evaluate_one (store : Store) (E : List Edge)
    (C : List (Edge × Nat)) (T : List Nat) (e : Edge) (he : e ∈ E) :
    e ∈ (evaluate_coverage 1 store E C T).store.globalEdges := by
  unfold evaluate_coverage
  dsimp only
  rw [foldl_evalCountStep_globalEdges]
  exact mem_foldl_evalEdgeStep_one E
    { store with globalCoverage := T.foldl insertNew store.globalCoverage } 0 e he

/-- Claim C5 counterexample: with `edge_confirm_threshold = 2`, an empty store
and run data `current_edges = {(0x300,0x304)}`, `current_edge_counts =
{(0x300,0x304) -> 1}`, the second of two identical `evaluate_coverage` calls
promotes one edge (its pending count, bumped by the first call, reaches the
threshold) and reports one bucket change — the claim says the second call
promotes nothing and reports no bucket change. -/
theorem c5_counterexample_second_call_promotes :
    c5First.newConfirmed = 0 ∧ c5First.isInteresting = false ∧
    c5Second.newConfirmed = 1 ∧ c5Second.bucketChanges = 1 ∧
    c5Second.isInteresting = true := by
  decide

/-- Claim C5 (amended): `evaluate_coverage` is not idempotent — it increments
pending counts and accumulates hit counts, so a second identical call may
promote edges whose pending count reaches the threshold and may report bucket
changes.  Only the confirmation part survives at `edge_confirm_threshold = 1`:
the first call then confirms every edge of the run, so the second identical
call promotes no edge. -/
theorem c5_second_call_promotes_nothing_threshold_one (store : Store)
    (E : List Edge) (C : List (Edge × Nat)) (T : List Nat) :
    (evaluate_coverage 1 (evaluate_coverage 1 store E C T).store E C T).newConfirmed
      = 0 := by
  have hall : ∀ e ∈ E, e ∈ ({ (evaluate_coverage 1 store E C T).store with
      globalCoverage := T.foldl insertNew
        (evaluate_coverage 1 store E C T).store.globalCoverage } : Store).globalEdges := by
    intro e he
    exact mem_globalEdges_after_evaluate_one store E C T e he
  conv_lhs => rw [evaluate_coverage]
  dsimp only
  rw [foldl_evalEdgeStep_all_mem 1 E _ 0 hall]

/-! ### Claims C1 and C4 -/

/-- Claim C1: with `edge_confirm_threshold = 2` and an empty store, run A
(edges `{(0x100,0x104),(0x104,0x108)}`) leaves nothing confirmed, both edges
pending at count 1, and is not interesting; run B (edge `{(0x100,0x104)}`)
promotes exactly `(0x100,0x104)`, leaves `(0x104,0x108)` pending at 1, and is
interesting. -/
theorem c1_confirmation_filters_one_shot_edges :
    c1RunA.store.globalEdges = [] ∧
    c1RunA.store.globalEdgePending = [((0x100, 0x104), 1), ((0x104, 0x108), 1)] ∧
    c1RunA.isInteresting = false ∧
    c1RunB.store.globalEdges = [(0x100, 0x104)] ∧
    c1RunB.store.globalEdgePending = [((0x104, 0x108), 1)] ∧
    c1RunB.isInteresting = true := by
  decide

/-- Claim C4: with `edge_confirm_threshold = 1`, five evaluations of the edge
`(0x200,0x204)` with hit counts 1,1,1,1,3 give cumulative totals 1,2,3,4,7 and
buckets 1,2,4,8,8; the first four runs are interesting, the fifth is not. -/
theorem c4_hit_count_bucketing_drives_interestingness :
    c4A.isInteresting = true ∧
    lookupD c4A.store.globalEdgeCounts (0x200, 0x204) 0 = 1 ∧
    lookupD c4A.store.globalEdgeBuckets (0x200, 0x204) 0 = 1 ∧
    c4B.isInteresting = true ∧
    lookupD c4B.store.globalEdgeCounts (0x200, 0x204) 0 = 2 ∧
    lookupD c4B.store.globalEdgeBuckets (0x200, 0x204) 0 = 2 ∧
    c4C.isInteresting = true ∧
    lookupD c4C.store.globalEdgeCounts (0x200, 0x204) 0 = 3 ∧
    lookupD c4C.store.globalEdgeBuckets (0x200, 0x204) 0 = 4 ∧
    c4D.isInteresting = true ∧
    lookupD c4D.store.globalEdgeCounts (0x200, 0x204) 0 = 4 ∧
    lookupD c4D.store.globalEdgeBuckets (0x200, 0x204) 0 = 8 ∧
    c4E.isInteresting = false ∧
    lookupD c4E.store.globalEdgeCounts (0x200, 0x204) 0 = 7 ∧
    lookupD c4E.store.globalEdgeBuckets (0x200, 0x204) 0 = 8 := by
  decide

/-! ### Claim C6 -/

/-- Claim C6 counterexample: on the claimed corpus of 3 initial plus 5
discovered seeds (8 seeds), culling is a no-op — `_cull_corpus` returns
immediately for corpora of at most 10 seeds — so seeds E..H all survive,
against the claim that exactly A, B, C, D remain. -/
theorem c6_counterexample_small_corpus_not_culled :
    cull_corpus 0 c6corpus8 = c6corpus8 ∧ (cull_corpus 0 c6corpus8).length = 8 := by
  decide

/-- Claim C6 (amended): corpora of at most 10 seeds are never culled, so the
8-seed scenario is left untouched; on the scenario enlarged past the guard
(initial A, B, C plus discovered D..K with `exec_count = 5`, only A covering
`e1` and only D covering `e2`), culling keeps exactly A, B, C (initial) and D
(favored for `e2`, as is A for `e1`) and removes E..K. -/
theorem c6_culling_protects_favored_and_initial :
    cull_corpus 0 c6corpus11 =
      [{ mkC6Seed [c6e1] 0 with isFavored := true }, mkC6Seed [] 0, mkC6Seed [] 0,
       { mkC6Seed [c6e2] 1 with isFavored := true }] := by
  decide

/-! ### Claim C7 -/

/-- Claim C7 (code bug): a `TIMEOUT` result while calibrating the very first
seed does stop that seed's calibration loop early (`actual_runs = 1` of 3),
but the whole run is NOT stopped: the abort check in `run` (line 2515) reads
`_timeout_crash`, which is initialized `False` (line 865) and assigned only
inside the main fuzzing loop (line 2774) — never on the calibration path — so
the check cannot fire and the fuzzing loop is entered.  The claim (and the
spec, which lists calibration-time timeouts as fatal) describes the evident
intent of that dead check; the code is the slip. -/
theorem c7_calibration_timeout_does_not_stop_run :
    calibrate_seed_actual_runs 3 [RC_TIMEOUT] = 1 ∧
    calibrate_seed_actual_runs 3 [RC_ERROR] = 1 ∧
    calibration_phase_enters_loop false [[RC_TIMEOUT]] = true := by
  decide

/-! ### Claim C8 -/

set_option maxRecDepth 4000 in
/-- Claim C8 counterexample: the deterministic queue for the seed
`cdw10 = 0x00000005` (other fields zero, `deterministic_arith_max = 10`) does
not consist of the claimed `cdw10` variants only: the claimed sequence has 93
elements, the source generator emits 253, and among them are emissions that
change `cdw11` — the byte-lane phase loops over all six CDW fields. -/
theorem c8_counterexample_stage_emits_zero_field_variants :
    ((deterministic_stage c8seed 10).any (fun c => c.cdw11 != 0)) = true ∧
    (deterministic_stage c8seed 10).length = 253 ∧
    c8ClaimedCdw10Sequence.length = 93 := by
  decide

set_option maxRecDepth 4000 in
/-- Claim C8 (amended): the deterministic queue for the seed
`cdw10 = 0x00000005` consists of exactly the claimed `cdw10` sequence —
32 walking bit flips, arithmetic `+1,-1,...,+10,-10`, the 32-bit interesting
assignments, the four byte-lane times interesting-8 assignments skipping
values equal to the original — FOLLOWED by the byte-lane times interesting-8
assignments of every zero field `cdw11..cdw15` (each contributing its 32
variants with a non-zero byte); `det_done` becomes true on the iteration
after the queue's 253 elements are consumed, and havoc resumes. -/
theorem c8_deterministic_stage_order :
    deterministic_stage c8seed 10 = c8ClaimedCdw10Sequence ++ c8ZeroFieldByteLanes ∧
    det_done_after (deterministic_stage c8seed 10).length 254 = true ∧
    det_done_after (deterministic_stage c8seed 10).length 253 = false := by
  decide

/-! ### Claim C10 -/

/-- Claim C10: `_read_pc` is total over every outcome of the underlying probe
calls — it returns the PC when halt and the register read both succeed and
`none` otherwise (never raising), and in every case, success or failure, the
last probe call it attempts before returning is the resume (`_go_func` in the
`finally` block, its own failure swallowed). -/
theorem c10_read_pc_total_and_always_resumes (o : ProbeOutcome) :
    (read_pc o).2.getLast? = some ProbeAction.go ∧
    ProbeAction.go ∈ (read_pc o).2 ∧
    (read_pc o).1 = (if o.haltOk then o.readResult else none) := by
  rcases o with ⟨h, r, g⟩
  cases h <;> cases r <;> simp [read_pc]

/-! ### Claim C9: numeric round-trips -/

theorem charVal_digitChar : ∀ d : Nat, d < 16 → charVal (digitChar d) = some d := by
  decide

theorem parseDigitsAux_map_digitChar (base : Nat) (hb : base ≤ 16) :
    ∀ (ds : List Nat) (acc : Nat), (∀ d ∈ ds, d < base) →
      parseDigitsAux base acc (ds.map digitChar)
        = some (ds.foldl (fun a d => a * base + d) acc) := by
  intro ds
  induction ds with
  | nil => intro acc _; rfl
  | cons d rest ih =>
    intro acc h
    have hd : d < base := h d (List.mem_cons_self d rest)
    have h16 : d < 16 := Nat.lt_of_lt_of_le hd hb
    rw [List.map_cons]
    show parseDigitsAux base acc (digitChar d :: rest.map digitChar) = _
    simp only [parseDigitsAux, charVal_digitChar d h16]
    rw [if_pos hd]
    rw [ih (acc * base + d) (fun x hx => h x (List.mem_cons_of_mem d hx))]
    rfl

theorem foldl_reverse_digits (base : Nat) :
    ∀ (L : List Nat) (acc : Nat),
      L.reverse.foldl (fun a d => a * base + d) acc
        = acc * base ^ L.length + Nat.ofDigits base L := by
  intro L
  induction L with
  | nil => intro acc; simp [Nat.ofDigits]
  | cons d L' ih =>
    intro acc
    rw [List.reverse_cons, List.foldl_append]
    rw [ih acc]
    show (acc * base ^ L'.length + Nat.ofDigits base L') * base + d
      = acc * base ^ (L'.length + 1) + Nat.ofDigits base (d :: L')
    rw [Nat.ofDigits_cons]
    ring

theorem parseHex_natToHexChars (n : Nat) : parseHex (natToHexChars n) = some n := by
  by_cases h : n = 0
  · subst h; decide
  · have hdig : Nat.digits 16 n ≠ [] := Nat.digits_ne_nil_iff_ne_zero.mpr h
    have hbe : natDigitsBE 16 n ≠ [] := by
      unfold natDigitsBE
      intro hc
      exact hdig (by simpa using congrArg List.reverse hc)
    obtain ⟨d, L', hL⟩ := List.exists_cons_of_ne_nil hbe
    have hempty : ((natDigitsBE 16 n).map digitChar).isEmpty = false := by
      rw [hL]; rfl
    unfold natToHexChars parseHex
    rw [if_neg h]
    dsimp only
    have hcond : List.take 2 ('0' :: 'x' :: (natDigitsBE 16 n).map digitChar)
        = ['0', 'x'] := rfl
    rw [if_pos hcond]
    show (if ((natDigitsBE 16 n).map digitChar).isEmpty = true then none
      else parseDigitsAux 16 0 ((natDigitsBE 16 n).map digitChar)) = some n
    rw [hempty]
    rw [if_neg (by simp)]
    have hlt : ∀ x ∈ natDigitsBE 16 n, x < 16 := by
      intro x hx
      unfold natDigitsBE at hx
      exact Nat.digits_lt_base (by omega) (List.mem_reverse.mp hx)
    rw [parseDigitsAux_map_digitChar 16 (Nat.le_refl 16) _ 0 hlt]
    unfold natDigitsBE
    rw [foldl_reverse_digits 16 (Nat.digits 16 n) 0]
    rw [Nat.ofDigits_digits]
    simp

theorem parseDec_natToDecChars (n : Nat) : parseDec (natToDecChars n) = some n := by
  by_cases h : n = 0
  · subst h; decide
  · have hdig : Nat.digits 10 n ≠ [] := Nat.digits_ne_nil_iff_ne_zero.mpr h
    have hbe : natDigitsBE 10 n ≠ [] := by
      unfold natDigitsBE
      intro hc
      exact hdig (by simpa using congrArg List.reverse hc)
    obtain ⟨d, L', hL⟩ := List.exists_cons_of_ne_nil hbe
    have hempty : ((natDigitsBE 10 n).map digitChar).isEmpty = false := by
      rw [hL]; rfl
    unfold natToDecChars parseDec
    rw [if_neg h]
    rw [hempty]
    rw [if_neg (by simp)]
    have hlt : ∀ x ∈ natDigitsBE 10 n, x < 10 := by
      intro x hx
      unfold natDigitsBE at hx
      exact Nat.digits_lt_base (by omega) (List.mem_reverse.mp hx)
    rw [parseDigitsAux_map_digitChar 10 (by omega) _ 0 hlt]
    unfold natDigitsBE
    rw [foldl_reverse_digits 10 (Nat.digits 10 n) 0]
    rw [Nat.ofDigits_digits]
    simp

/-! ### Claim C9: permutation and membership lemmas -/

theorem mem_foldl_insertNew {α : Type} [DecidableEq α] (l : List α) :
    ∀ (init : List α) (a : α), a ∈ l.foldl insertNew init ↔ a ∈ init ∨ a ∈ l := by
  induction l with
  | nil => intro init a; simp
  | cons x rest ih =>
    intro init a
    rw [List.foldl_cons, ih (insertNew init x) a, mem_insertNew]
    simp only [List.mem_cons]
    tauto

theorem insertSorted_perm {α : Type} (le : α → α → Bool) (a : α) (l : List α) :
    (insertSorted le a l).Perm (a :: l) := by
  induction l with
  | nil => exact List.Perm.refl _
  | cons b rest ih =>
    unfold insertSorted
    split
    · exact List.Perm.refl _
    · exact (List.Perm.cons b ih).trans (List.Perm.swap a b rest)

theorem sortList_perm {α : Type} (le : α → α → Bool) (l : List α) :
    (sortList le l).Perm l := by
  induction l with
  | nil => exact List.Perm.refl _
  | cons x rest ih =>
    show (insertSorted le x (sortList le rest)).Perm (x :: rest)
    exact (insertSorted_perm le x (sortList le rest)).trans (List.Perm.cons x ih)

/-! ### Claim C9: association-list lookup lemmas -/

theorem lookupA_eq_none_iff {K V : Type} [DecidableEq K]
    (m : List (K × V)) (k : K) :
    lookupA m k = none ↔ k ∉ m.map Prod.fst := by
  induction m with
  | nil => simp [lookupA]
  | cons p rest ih =>
    rcases p with ⟨k', v⟩
    unfold lookupA
    by_cases h : k' = k
    · subst h; simp
    · rw [if_neg h]
      simp only [List.map_cons, List.mem_cons]
      rw [ih]
      constructor
      · rintro hn (rfl | hm)
        · exact h rfl
        · exact hn hm
      · intro hn hm
        exact hn (Or.inr hm)

theorem mem_of_lookupA_eq_some {K V : Type} [DecidableEq K]
    (m : List (K × V)) (k : K) (v : V) (h : lookupA m k = some v) : (k, v) ∈ m := by
  induction m with
  | nil => simp [lookupA] at h
  | cons p rest ih =>
    rcases p with ⟨k', v'⟩
    unfold lookupA at h
    by_cases hk : k' = k
    · subst hk
      rw [if_pos rfl] at h
      cases h
      exact List.mem_cons_self _ _
    · rw [if_neg hk] at h
      exact List.mem_cons_of_mem _ (ih h)

theorem lookupA_eq_some_of_mem_nodup {K V : Type} [DecidableEq K]
    (m : List (K × V)) (k : K) (v : V)
    (hnd : (m.map Prod.fst).Nodup) (hm : (k, v) ∈ m) : lookupA m k = some v := by
  induction m with
  | nil => cases hm
  | cons p rest ih =>
    rcases p with ⟨k', v'⟩
    rw [List.map_cons, List.nodup_cons] at hnd
    rcases List.mem_cons.mp hm with heq | hmem
    · cases heq
      unfold lookupA
      rw [if_pos rfl]
    · have hk : k' ≠ k := by
        intro hkk
        subst hkk
        exact hnd.1 (List.mem_map.mpr ⟨(k', v), hmem, rfl⟩)
      unfold lookupA
      rw [if_neg hk]
      exact ih hnd.2 hmem

theorem lookupA_setA_self {K V : Type} [DecidableEq K]
    (m : List (K × V)) (k : K) (v : V) : lookupA (setA m k v) k = some v := by
  induction m with
  | nil => simp [setA, lookupA]
  | cons p rest ih =>
    rcases p with ⟨k', v'⟩
    unfold setA
    by_cases h : k' = k
    · rw [if_pos h]
      unfold lookupA
      rw [if_pos h]
    · rw [if_neg h]
      unfold lookupA
      rw [if_neg h]
      exact ih

theorem lookupA_setA_other {K V : Type} [DecidableEq K]
    (m : List (K × V)) (k k' : K) (v : V) (h : k' ≠ k) :
    lookupA (setA m k' v) k = lookupA m k := by
  induction m with
  | nil => simp [setA, lookupA, h]
  | cons p rest ih =>
    rcases p with ⟨a, w⟩
    unfold setA
    by_cases ha : a = k'
    · rw [if_pos ha]
      unfold lookupA
      subst ha
      rw [if_neg h, if_neg h]
    · rw [if_neg ha]
      unfold lookupA
      by_cases hak : a = k
      · rw [if_pos hak, if_pos hak]
      · rw [if_neg hak, if_neg hak]
        exact ih

theorem foldl_setA_lookup_of_not_mem {K V : Type} [DecidableEq K]
    (entries : List (K × V)) :
    ∀ (init : List (K × V)) (k : K), k ∉ entries.map Prod.fst →
      lookupA (entries.foldl (fun m p => setA m p.1 p.2) init) k = lookupA init k := by
  induction entries with
  | nil => intro init k _; rfl
  | cons p rest ih =>
    intro init k hk
    rcases p with ⟨a, w⟩
    rw [List.map_cons, List.mem_cons] at hk
    push_neg at hk
    rw [List.foldl_cons]
    rw [ih _ k hk.2]
    exact lookupA_setA_other init k a w (fun hkk => hk.1 hkk.symm)

theorem foldl_setA_lookup_of_some {K V : Type} [DecidableEq K]
    (entries : List (K × V)) :
    ∀ (init : List (K × V)) (k : K) (v : V), (entries.map Prod.fst).Nodup →
      lookupA entries k = some v →
      lookupA (entries.foldl (fun m p => setA m p.1 p.2) init) k = some v := by
  induction entries with
  | nil => intro init k v _ h; simp [lookupA] at h
  | cons p rest ih =>
    intro init k v hnd h
    rcases p with ⟨a, w⟩
    rw [List.map_cons, List.nodup_cons] at hnd
    rw [List.foldl_cons]
    unfold lookupA at h
    by_cases ha : a = k
    · subst ha
      rw [if_pos rfl] at h
      cases h
      rw [foldl_setA_lookup_of_not_mem rest _ _ hnd.1]
      exact lookupA_setA_self _ _ _
    · rw [if_neg ha] at h
      exact ih _ k v hnd.2 h

/-! ### Claim C9: load-fold computation lemmas -/

theorem foldl_loadPcStep_edges (lines : List (List Char)) :
    ∀ st : Store, (lines.foldl loadPcStep st).globalEdges = st.globalEdges := by
  induction lines with
  | nil => intro st; rfl
  | cons l rest ih =>
    intro st
    rw [List.foldl_cons, ih]
    unfold loadPcStep
    split <;> rfl

theorem foldl_loadPcStep_counts (lines : List (List Char)) :
    ∀ st : Store,
      (lines.foldl loadPcStep st).globalEdgeCounts = st.globalEdgeCounts := by
  induction lines with
  | nil => intro st; rfl
  | cons l rest ih =>
    intro st
    rw [List.foldl_cons, ih]
    unfold loadPcStep
    split <;> rfl

theorem foldl_loadEdgeStep_coverage (lines : List (List (List Char))) :
    ∀ st : Store,
      (lines.foldl loadEdgeStep st).globalCoverage = st.globalCoverage := by
  induction lines with
  | nil => intro st; rfl
  | cons l rest ih =>
    intro st
    rw [List.foldl_cons, ih]
    unfold loadEdgeStep
    (repeat' split) <;> rfl

theorem foldl_loadEdgeStep_counts (lines : List (List (List Char))) :
    ∀ st : Store,
      (lines.foldl loadEdgeStep st).globalEdgeCounts = st.globalEdgeCounts := by
  induction lines with
  | nil => intro st; rfl
  | cons l rest ih =>
    intro st
    rw [List.foldl_cons, ih]
    unfold loadEdgeStep
    (repeat' split) <;> rfl

theorem foldl_loadCountStep_coverage (lines : List (List (List Char))) :
    ∀ st : Store,
      (lines.foldl loadCountStep st).globalCoverage = st.globalCoverage := by
  induction lines with
  | nil => intro st; rfl
  | cons l rest ih =>
    intro st
    rw [List.foldl_cons, ih]
    unfold loadCountStep
    (repeat' split) <;> rfl

theorem foldl_loadCountStep_edges (lines : List (List (List Char))) :
    ∀ st : Store,
      (lines.foldl loadCountStep st).globalEdges = st.globalEdges := by
  induction lines with
  | nil => intro st; rfl
  | cons l rest ih =>
    intro st
    rw [List.foldl_cons, ih]
    unfold loadCountStep
    (repeat' split) <;> rfl

theorem foldl_loadPcStep_coverage (pcs : List Nat) :
    ∀ st : Store,
      ((pcs.map natToHexChars).foldl loadPcStep st).globalCoverage
        = pcs.foldl insertNew st.globalCoverage := by
  induction pcs with
  | nil => intro st; rfl
  | cons pc rest ih =>
    intro st
    rw [List.map_cons, List.foldl_cons, List.foldl_cons]
    have hstep : loadPcStep st (natToHexChars pc)
        = { st with globalCoverage := insertNew st.globalCoverage pc } := by
      unfold loadPcStep
      rw [parseHex_natToHexChars]
    rw [hstep, ih]

theorem foldl_loadEdgeStep_edges (es : List Edge) :
    ∀ st : Store,
      ((es.map (fun e => [natToHexChars e.1, natToHexChars e.2])).foldl
          loadEdgeStep st).globalEdges
        = es.foldl insertNew st.globalEdges := by
  induction es with
  | nil => intro st; rfl
  | cons e rest ih =>
    intro st
    rw [List.map_cons, List.foldl_cons, List.foldl_cons]
    have hstep : loadEdgeStep st [natToHexChars e.1, natToHexChars e.2]
        = { st with globalEdges := insertNew st.globalEdges e } := by
      unfold loadEdgeStep
      dsimp only
      rw [parseHex_natToHexChars, parseHex_natToHexChars]
    rw [hstep, ih]

theorem foldl_loadCountStep_counts (entries : List (Edge × Nat)) :
    ∀ st : Store,
      ((entries.map (fun p =>
          [natToHexChars p.1.1, natToHexChars p.1.2, natToDecChars p.2])).foldl
            loadCountStep st).globalEdgeCounts
        = entries.foldl (fun m p => setA m p.1 p.2) st.globalEdgeCounts := by
  induction entries with
  | nil => intro st; rfl
  | cons p rest ih =>
    intro st
    rw [List.map_cons, List.foldl_cons, List.foldl_cons]
    have hstep : loadCountStep st
          [natToHexChars p.1.1, natToHexChars p.1.2, natToDecChars p.2]
        = { st with
            globalEdgeCounts := setA st.globalEdgeCounts p.1 p.2,
            globalEdgeBuckets :=
              setA st.globalEdgeBuckets p.1 (count_to_bucket p.2) } := by
      unfold loadCountStep
      dsimp only
      rw [parseHex_natToHexChars, parseHex_natToHexChars, parseDec_natToDecChars]
    rw [hstep, ih]

/-! ### Claim C9: the round trip -/

/-- Claim C9: saving the coverage files and loading them into a fresh store
reproduces `global_confirmed_edges`, `global_pcs` and `global_edge_counts`:
PC and confirmed-edge membership is preserved exactly, and every cumulative
count looks up to its pre-persist value (given the well-formedness invariant
that the counts map binds each edge once, which every store built through
`evaluate_coverage` or `load_coverage` satisfies). -/
theorem c9_save_load_round_trip (st : Store)
    (hnodup : (st.globalEdgeCounts.map Prod.fst).Nodup) :
    (∀ p : Nat, p ∈ (load_coverage Store.empty (save_coverage st)).globalCoverage
        ↔ p ∈ st.globalCoverage) ∧
    (∀ e : Edge, e ∈ (load_coverage Store.empty (save_coverage st)).globalEdges
        ↔ e ∈ st.globalEdges) ∧
    (∀ e : Edge,
      lookupA (load_coverage Store.empty (save_coverage st)).globalEdgeCounts e
        = lookupA st.globalEdgeCounts e) := by
  unfold load_coverage save_coverage
  dsimp only
  refine ⟨?_, ?_, ?_⟩
  · intro p
    rw [foldl_loadCountStep_coverage, foldl_loadEdgeStep_coverage,
      foldl_loadPcStep_coverage]
    rw [mem_foldl_insertNew]
    show p ∈ ([] : List Nat) ∨ _ ↔ _
    simp only [List.not_mem_nil, false_or]
    exact (sortList_perm natLe st.globalCoverage).mem_iff
  · intro e
    rw [foldl_loadCountStep_edges, foldl_loadEdgeStep_edges,
      foldl_loadPcStep_edges]
    rw [mem_foldl_insertNew]
    show e ∈ ([] : List Edge) ∨ _ ↔ _
    simp only [List.not_mem_nil, false_or]
    exact (sortList_perm edgeLe st.globalEdges).mem_iff
  · intro e
    rw [foldl_loadCountStep_counts, foldl_loadEdgeStep_counts,
      foldl_loadPcStep_counts]
    have hperm := sortList_perm countEntryLe st.globalEdgeCounts
    have hkeys : ((sortList countEntryLe st.globalEdgeCounts).map Prod.fst).Perm
        (st.globalEdgeCounts.map Prod.fst) := hperm.map Prod.fst
    have hnd2 : ((sortList countEntryLe st.globalEdgeCounts).map Prod.fst).Nodup :=
      (hkeys.nodup_iff).mpr hnodup
    rcases h : lookupA st.globalEdgeCounts e with _ | v
    · have hout : e ∉ st.globalEdgeCounts.map Prod.fst :=
        (lookupA_eq_none_iff _ _).mp h
      have hout2 : e ∉ (sortList countEntryLe st.globalEdgeCounts).map Prod.fst :=
        fun hm => hout (hkeys.mem_iff.mp hm)
      rw [foldl_setA_lookup_of_not_mem _ _ _ hout2]
      rfl
    · have hmem : (e, v) ∈ st.globalEdgeCounts := mem_of_lookupA_eq_some _ _ _ h
      have hmem2 : (e, v) ∈ sortList countEntryLe st.globalEdgeCounts :=
        hperm.mem_iff.mpr hmem
      exact foldl_setA_lookup_of_some _ _ _ _ hnd2
        (lookupA_eq_some_of_mem_nodup _ _ _ hnd2 hmem2)

/-- Witness for C9 at a concrete store with two confirmed edges, counts
`{(0x10,0x14) -> 5, (0x14,0x18) -> 3}` and three PCs. -/
theorem c9_save_load_round_trip_witness :
    (0x10 ∈ (load_coverage Store.empty (save_coverage c9wStore)).globalCoverage
      ↔ 0x10 ∈ c9wStore.globalCoverage) ∧
    ((0x10, 0x14) ∈ (load_coverage Store.empty (save_coverage c9wStore)).globalEdges
      ↔ (0x10, 0x14) ∈ c9wStore.globalEdges) ∧
    lookupA (load_coverage Store.empty (save_coverage c9wStore)).globalEdgeCounts
        (0x14, 0x18)
      = lookupA c9wStore.globalEdgeCounts (0x14, 0x18) := by
  obtain ⟨h1, h2, h3⟩ := c9_save_load_round_trip c9wStore (by decide)
  exact ⟨h1 0x10, h2 (0x10, 0x14), h3 (0x14, 0x18)⟩

end PCFuzz
